import Mathlib

/-!
Verification of the afsmon AFS-fileserver monitor (openstack-infra/afsmon).

The development shallowly embeds the parsing and polling layer of
`afsmon/__init__.py` (and the statsd reporter of `afsmon/cmd/main.py`):

* each Python `re` pattern used by the parsers is translated into an
  executable character-level matcher with Python's leftmost-search
  semantics (`searchWith`);
* `bytes`/`str` values become `String`/`List Char`, integers become `Nat`
  or `Int`, `datetime` values become explicit calendar records
  (`PDateTime`), and `float` percentages become exact rationals with an
  explicit two-decimal rounding function (`round2`);
* fallible Python code (regex match objects that may be `None`,
  `ZeroDivisionError`, `ValueError` from `strptime`, `AttributeError`
  from a missing attribute, `CalledProcessError` from `subprocess`)
  becomes `Except PErr`;
* the `subprocess` calls become an explicit environment (`HostEnv`)
  holding the text each external command would print, with `none`
  standing for a non-zero exit status, and `getStats` additionally
  returns the trace of commands issued.
-/

namespace Afsmon

/-- Python exceptions that the embedded code can raise. -/
inductive PErr where
  /-- Python `AttributeError`: `.group`/member access on `None` or a missing
  enum member. -/
  | attributeError
  /-- Python `ValueError`: raised by `datetime.strptime` on malformed input. -/
  | valueError
  /-- Python `ZeroDivisionError`: float division by zero. -/
  | zeroDivisionError
  /-- Python `subprocess.CalledProcessError`: external command non-zero exit. -/
  | calledProcessError
deriving DecidableEq, Repr

/-! ## Character classes (Python `re` on ASCII input)

The tool outputs are decoded as ASCII (`.decode('ascii')` in the source),
so the Python character classes are modelled on their ASCII portions. -/

/-- Python regex `\s` (ASCII): space, tab, newline, carriage return,
vertical tab, form feed. -/
def pSpace (c : Char) : Bool :=
  c = ' ' || c = '\t' || c = '\n' || c = '\r' || c.toNat = 11 || c.toNat = 12

/-- Python regex `\d` (ASCII). -/
def pDigit (c : Char) : Bool := '0' ≤ c && c ≤ '9'

/-- Python regex `\w` (ASCII): letters, digits, underscore. -/
def pWord (c : Char) : Bool := c.isAlpha || pDigit c || c = '_'

/-- Python regex `[a-z]`. -/
def pLower (c : Char) : Bool := 'a' ≤ c && c ≤ 'z'

/-! ## Matcher combinators -/

/-- Consume a literal character sequence, returning the rest. -/
def lit : List Char → List Char → Option (List Char)
  | [], cs => some cs
  | _ :: _, [] => none
  | l :: ls, c :: cs => if c = l then lit ls cs else none

/-- Consume a maximal non-empty run of characters satisfying `p`
(the greedy `X+` of a regex whose continuation starts with a character
outside the class, so no backtracking into the run is ever needed). -/
def span1 (p : Char → Bool) (cs : List Char) : Option (List Char × List Char) :=
  let t := cs.takeWhile p
  if t.isEmpty then none else some (t, cs.dropWhile p)

/-- Digits of a decimal numeral to a `Nat` (Python `int(...)` on a
`\d+` match, which cannot fail). -/
def natOfDigits (ds : List Char) : Nat :=
  ds.foldl (fun n c => n * 10 + (c.toNat - 48)) 0

/-- Greedy `\d+` returning its numeric value. -/
def digits1 (cs : List Char) : Option (Nat × List Char) := do
  let (ds, rest) ← span1 pDigit cs
  pure (natOfDigits ds, rest)

/-- Python `re.search` semantics: try the matcher at every start position, left
to right (the final, empty position included). -/
def searchWith {α : Type} (m : List Char → Option α) : List Char → Option α
  | [] => m []
  | c :: cs =>
    match m (c :: cs) with
    | some r => some r
    | none => searchWith m cs

/-- Python `needle in haystack` substring test. -/
def containsSub (needle : List Char) : List Char → Bool
  | [] => needle.isEmpty
  | c :: cs => needle.isPrefixOf (c :: cs) || containsSub needle cs

/-! ## Dates: `AFS_DATE_REGEX` and `datetime.strptime`

`AFS_DATE_REGEX = '(?P<date>\w+ \w+\s+(\d{1,2}) \d+:\d+:\d+ \d+)'`,
parsed with `AFS_DATE_STRPTIME = '%a %b %d %H:%M:%S %Y'`. -/

/-- A parsed `datetime.datetime` (the weekday name is consumed by
`%a` but the stored date is determined by year/month/day alone). -/
structure PDateTime where
  year : Nat
  month : Nat
  day : Nat
  hour : Nat
  minute : Nat
  second : Nat
deriving DecidableEq, Repr

/-- Match `AFS_DATE_REGEX` at the current position, returning the text of
its `date` group.  Greedy submatches need no backtracking: every `\w+`,
`\s+` or `\d+` run is followed by a character outside its class, and the
`\d{1,2}` day is handled by its two explicit alternatives. -/
def matchAfsDateAt (cs : List Char) : Option (List Char) := do
  let (w1, r1) ← span1 pWord cs              -- \w+
  let r2 ← lit [' '] r1                      -- literal space
  let (w2, r3) ← span1 pWord r2              -- \w+
  let (sp, r4) ← span1 pSpace r3             -- \s+
  -- (\d{1,2}) followed by a literal space
  let (day, r5) ←
    match r4 with
    | d1 :: rest1 =>
      if pDigit d1 then
        match rest1 with
        | c2 :: rest2 =>
          if pDigit c2 then
            match rest2 with
            | c3 :: rest3 => if c3 = ' ' then some ([d1, c2], rest3) else none
            | [] => none
          else if c2 = ' ' then some ([d1], rest2) else none
        | [] => none
      else none
    | [] => none
  let (hh, r6) ← span1 pDigit r5             -- \d+
  let r7 ← lit [':'] r6
  let (mm, r8) ← span1 pDigit r7             -- \d+
  let r9 ← lit [':'] r8
  let (ss, r10) ← span1 pDigit r9            -- \d+
  let r11 ← lit [' '] r10
  let (yy, _) ← span1 pDigit r11             -- \d+
  pure (w1 ++ [' '] ++ w2 ++ sp ++ day ++ [' '] ++ hh ++ [':'] ++ mm
        ++ [':'] ++ ss ++ [' '] ++ yy)

/-- Tail of `splitSpaces`: `cur` holds the current token reversed. -/
def splitSpacesGo (cur : List Char) : List Char → List (List Char)
  | [] => if cur.isEmpty then [] else [cur.reverse]
  | c :: cs =>
    if pSpace c then
      if cur.isEmpty then splitSpacesGo [] cs
      else cur.reverse :: splitSpacesGo [] cs
    else splitSpacesGo (c :: cur) cs

/-- Split on runs of Python whitespace, dropping empty pieces (how
`strptime` treats whitespace in its format string). -/
def splitSpaces (cs : List Char) : List (List Char) :=
  splitSpacesGo [] cs

/-- C-locale abbreviated weekday names accepted by `%a`
(case-insensitively). -/
def weekdayNames : List String :=
  ["mon", "tue", "wed", "thu", "fri", "sat", "sun"]

/-- C-locale abbreviated month names accepted by `%b`
(case-insensitively), in calendar order. -/
def monthNames : List String :=
  ["jan", "feb", "mar", "apr", "may", "jun",
   "jul", "aug", "sep", "oct", "nov", "dec"]

/-- Python `datetime.strptime(s, '%a %b %d %H:%M:%S %Y')`, modelled for
C-locale abbreviated names: token and range validation as performed by
`_strptime`'s compiled regex (`%d` is 1..31 on at most two digits, `%H`
is 0..23, `%M`/`%S` 0..59, `%Y` exactly four digits); finer calendar
checks (month lengths, leap years) are not needed by any input
considered here and are not modelled. -/
def strptimeAfs (cs : List Char) : Option PDateTime := do
  match splitSpaces cs with
  | [wd, mon, dayT, timeT, yearT] =>
    let wdL := String.mk (wd.map Char.toLower)
    if weekdayNames.contains wdL then
      let monL := String.mk (mon.map Char.toLower)
      match (monthNames.indexOf? monL) with
      | none => none
      | some mIdx =>
        if dayT.all pDigit ∧ dayT.length ≤ 2 ∧ 1 ≤ natOfDigits dayT
            ∧ natOfDigits dayT ≤ 31 then
          match timeT.splitOn ':' with
          | [hT, mT, sT] =>
            if hT.all pDigit ∧ !hT.isEmpty ∧ hT.length ≤ 2 ∧ natOfDigits hT ≤ 23
                ∧ mT.all pDigit ∧ !mT.isEmpty ∧ mT.length ≤ 2 ∧ natOfDigits mT ≤ 59
                ∧ sT.all pDigit ∧ !sT.isEmpty ∧ sT.length ≤ 2 ∧ natOfDigits sT ≤ 59
                ∧ yearT.all pDigit ∧ yearT.length = 4 then
              pure { year := natOfDigits yearT, month := mIdx + 1,
                     day := natOfDigits dayT, hour := natOfDigits hT,
                     minute := natOfDigits mT, second := natOfDigits sT }
            else none
          | _ => none
        else none
    else none
  | _ => none

/-- Days from civil epoch 1970-01-01 (proleptic Gregorian), the standard
era-based formula; used to give `datetime` subtraction and
`strftime("%s")` a concrete meaning in seconds. -/
def daysFromCivil (y m d : Int) : Int :=
  let y2 := if m ≤ 2 then y - 1 else y
  let era := (if 0 ≤ y2 then y2 else y2 - 399) / 400
  let yoe := y2 - era * 400
  let mp := (m + 9) % 12
  let doy := (153 * mp + 2) / 5 + d - 1
  let doe := yoe * 365 + yoe / 4 - yoe / 100 + doy
  era * 146097 + doe - 719468

/-- A `PDateTime` as seconds since the epoch (models both `timedelta`
arithmetic on `datetime` differences and `creation.strftime("%s")`). -/
def dtToSec (t : PDateTime) : Int :=
  daysFromCivil t.year t.month t.day * 86400
    + t.hour * 3600 + t.minute * 60 + t.second

/-! ## Two-decimal rounding

`round(x, 2)` on the exact rational value of the percentage expression;
Python rounds the nearest-double approximation with ties to even, which
agrees with this exact model on all non-tie values (every value arising
in the claims is a non-tie). -/

/-- Python `round(x, 2)` as an exact operation on rationals. -/
def round2 (x : ℚ) : ℚ := ((⌊x * 100 + 1 / 2⌋ : ℤ) : ℚ) / 100

/-! ## Data model

`FileServerStatus` is the Python `Enum` of `afsmon/__init__.py`; note
that the member the source actually defines is `TEMPORARY_DISABLED`
(line 31), while the assignment on line 168 references the *undefined*
attribute `FileServerStatus.TEMPORARILY_DISABLED` — in Python that
attribute access raises `AttributeError` (see `getFsStats` below). -/
inductive FileServerStatus where
  | NORMAL
  | TEMPORARY_DISABLED
  | DISABLED
  | UNKNOWN
  | NO_CONNECTION
deriving DecidableEq, Repr

/-- The `Partition` namedtuple.  `used` is computed as `total − free`
over Python ints, hence is modelled as an `Int`. -/
structure Partition where
  partition : String
  used : Int
  free : Nat
  total : Nat
  percent_used : ℚ
deriving DecidableEq, Repr

/-- The `Volume` namedtuple of `afsmon/__init__.py`.  `volume`, `id` and
`perms` are stored as the matched strings (the test compares `id` as a
string), `used`/`quota` as ints. -/
structure Volume where
  volume : String
  id : String
  perms : String
  used : Nat
  quota : Nat
  percent_used : ℚ
  creation : PDateTime
deriving DecidableEq, Repr

/-- The mutable attributes of a `FileServerStats` object.  `__init__`
does not assign `status`, so it is an `Option` that starts out `none`. -/
structure FileServerStats where
  hostname : String
  timestamp : Option PDateTime
  restart : Option PDateTime
  uptime : Option Int
  partitions : List Partition
  volumes : List Volume
  calls_waiting : Option Nat
  idle_threads : Option Nat
  status : Option FileServerStatus
deriving DecidableEq, Repr

/-- The constructor `FileServerStats.__init__(hostname)`. -/
def initFS (hostname : String) : FileServerStats :=
  { hostname := hostname, timestamp := none, restart := none,
    uptime := none, partitions := [], volumes := [],
    calls_waiting := none, idle_threads := none, status := none }

/-! ## Volume parser (`FileServerStats._get_volumes`)

`vol_regex = '^(?P<vol>[^\s]+)\s+(?P<id>\d+)\s(?P<perms>R[OW])\s+(?P<used>\d+) K'`
applied with `re.search` and no `MULTILINE` flag, so the `^` anchors the
match to the very start of the chunk (the line containing "On-line"). -/

/-- Match `vol_regex` at the start of the chunk, returning the four
groups.  The greedy `[^\s]+`, `\s+` and `\d+` runs are each followed by
a character outside their class, so maximal-munch is exact. -/
def matchVolHeaderAt (cs : List Char) :
    Option (String × String × String × Nat) := do
  let (vol, r1) ← span1 (fun c => !(pSpace c)) cs   -- [^\s]+
  let (_, r2) ← span1 pSpace r1                     -- \s+
  let (idDs, r3) ← span1 pDigit r2                  -- (?P<id>\d+)
  -- a single \s, then R[OW]
  match r3 with
  | c :: 'R' :: p2 :: r4 =>
    if pSpace c ∧ (p2 = 'O' ∨ p2 = 'W') then do
      let (_, r5) ← span1 pSpace r4                 -- \s+
      let (usedN, r6) ← digits1 r5                  -- (?P<used>\d+)
      let _ ← lit [' ', 'K'] r6                     -- literal " K"
      pure (String.mk vol, String.mk idDs, String.mk ['R', p2], usedN)
    else none
  | _ => none

/-- Match `'MaxQuota\s+(?P<quota>\d+) K'` at the current position. -/
def matchMaxQuotaAt (cs : List Char) : Option Nat := do
  let r1 ← lit "MaxQuota".data cs
  let (_, r2) ← span1 pSpace r1
  let (q, r3) ← digits1 r2
  let _ ← lit [' ', 'K'] r3
  pure q

/-- Match `r'Creation\s+%s' % AFS_DATE_REGEX` at the current position,
returning the text of the `date` group. -/
def matchCreationAt (cs : List Char) : Option (List Char) := do
  let r1 ← lit "Creation".data cs
  let (_, r2) ← span1 pSpace r1
  matchAfsDateAt r2

/-- The body of the chunk-to-`Volume` conversion, in source order:
`m.group('used')` raises `AttributeError` when `vol_regex` did not
match, then `q.group('quota')` likewise, then the percentage division
(raising `ZeroDivisionError` on a zero quota), then the `Creation`
search (`AttributeError` when absent) and `strptime` (`ValueError`). -/
def parseVolChunk (chunk : List Char) : Except PErr Volume :=
  match matchVolHeaderAt chunk with
  | none => .error .attributeError
  | some (vol, idS, perms, used) =>
    match searchWith matchMaxQuotaAt chunk with
    | none => .error .attributeError
    | some quota =>
      if quota = 0 then .error .zeroDivisionError
      else
        let percent := round2 ((used : ℚ) / (quota : ℚ) * 100)
        match searchWith matchCreationAt chunk with
        | none => .error .attributeError
        | some dstr =>
          match strptimeAfs dstr with
          | none => .error .valueError
          | some creation =>
            .ok { volume := vol, id := idS, perms := perms, used := used,
                  quota := quota, percent_used := percent,
                  creation := creation }

/-- Python `io.StringIO.readline`: the line including its trailing newline (or
up to end of input), plus the rest. -/
def readLine (cs : List Char) : List Char × List Char :=
  let t := cs.takeWhile (fun c => c ≠ '\n')
  match cs.dropWhile (fun c => c ≠ '\n') with
  | [] => (t, [])
  | _ :: rest => (t ++ ['\n'], rest)

/-- Runs `n` successive `readline` calls, concatenated; at end of input
`readline` keeps returning the empty string. -/
def readLines : Nat → List Char → List Char × List Char
  | 0, cs => ([], cs)
  | _ + 1, [] => ([], [])
  | n + 1, c :: cs =>
    let (l, r) := readLine (c :: cs)
    let (ls, r2) := readLines n r
    (l ++ ls, r2)

/-- The `while True` loop of `_get_volumes`, reading line by line and,
on each line containing "On-line", consuming that line plus the next 8
as one chunk.  Volumes are appended in source order; a chunk that fails
to convert raises.  `fuel` is structural-recursion fuel: each iteration
consumes at least one character, so the wrapper's `length + 1` can never
run out. -/
def getVolumesAux : Nat → List Char → Except PErr (List Volume)
  | _, [] => .ok []
  | 0, _ :: _ => .ok []
  | fuel + 1, c :: cs =>
    let (line, rest) := readLine (c :: cs)
    if containsSub "On-line".data line then
      let (more, rest2) := readLines 8 rest
      match parseVolChunk (line ++ more) with
      | .error e => .error e
      | .ok v =>
        match getVolumesAux fuel rest2 with
        | .error e => .error e
        | .ok vs => .ok (v :: vs)
    else getVolumesAux fuel rest

/-- The method `FileServerStats._get_volumes`, as a function of the text printed by
`vos listvol -long -server <host>`. -/
def getVolumes (out : String) : Except PErr (List Volume) :=
  getVolumesAux (out.length + 1) out.data

/-! ## Partition parser (`FileServerStats._get_partition_stats`) -/

/-- Match
`'Free space on partition /vicep(?P<partition>[a-z][a-z]?): (?P<free>\d+) K blocks out of total (?P<total>\d+)'`
at the current position.  For the optional second letter, the regex
first tries two letters and falls back to one only when the character
after the first letter is not `[a-z]`; if it is a letter but the colon
does not follow, both alternatives fail. -/
def matchFreeSpaceAt (cs : List Char) : Option (String × Nat × Nat) := do
  let r1 ← lit "Free space on partition /vicep".data cs
  let (letters, r2) ←
    match r1 with
    | c1 :: rest1 =>
      if pLower c1 then
        match rest1 with
        | c2 :: rest2 =>
          if pLower c2 then some ([c1, c2], rest2)
          else some ([c1], rest1)
        | [] => some ([c1], [])
      else none
    | [] => none
  let r3 ← lit [':', ' '] r2
  let (free, r4) ← digits1 r3
  let r5 ← lit " K blocks out of total ".data r4
  let (total, _) ← digits1 r5
  pure (String.mk letters, free, total)

/-- Python `text.split('\n')`: split at every newline, keeping empty
pieces (`''.split('\n') == ['']`). -/
def splitNl : List Char → List (List Char)
  | [] => [[]]
  | c :: cs =>
    let r := splitNl cs
    if c = '\n' then [] :: r
    else
      match r with
      | [] => [[c]]
      | t :: ts => (c :: t) :: ts

/-- The `Partition` record built for one matched line:
`used = int(total) - int(free)` and
`percent = round(float(used) / float(total) * 100, 2)`. -/
def mkPartition (letters : String) (free total : Nat) : Partition :=
  { partition := "vicep" ++ letters,
    used := (total : Int) - (free : Int),
    free := free, total := total,
    percent_used := round2 ((((total : ℚ) - (free : ℚ)) / (total : ℚ)) * 100) }

/-- One `re.search` over a line of the `vos partinfo` output. -/
def partLineMatch (line : List Char) : Option (String × Nat × Nat) :=
  searchWith matchFreeSpaceAt line

/-- The `for line in output.split('\n')` loop of
`_get_partition_stats`: matching lines are converted in order (a zero
total raises `ZeroDivisionError`), non-matching lines are skipped. -/
def getPartsLines : List (List Char) → Except PErr (List Partition)
  | [] => .ok []
  | l :: ls =>
    match partLineMatch l with
    | none => getPartsLines ls
    | some (p, free, total) =>
      if total = 0 then .error .zeroDivisionError
      else
        match getPartsLines ls with
        | .error e => .error e
        | .ok rest => .ok (mkPartition p free total :: rest)

/-- The method `FileServerStats._get_partition_stats`, as a function of the text
printed by `vos partinfo <host> -noauth`. -/
def getPartitionStats (out : String) : Except PErr (List Partition) :=
  getPartsLines (splitNl out.data)

/-! ## Thread-stats parser (`FileServerStats._get_calls_waiting`) -/

/-- Match `'(?P<waiting>\d+) calls waiting for a thread'` at the current
position. -/
def matchCallsWaitingAt (cs : List Char) : Option Nat := do
  let (n, r1) ← digits1 cs
  let _ ← lit " calls waiting for a thread".data r1
  pure n

/-- Match `'(?P<idle>\d+) threads are idle'` at the current position. -/
def matchThreadsIdleAt (cs : List Char) : Option Nat := do
  let (n, r1) ← digits1 cs
  let _ ← lit " threads are idle".data r1
  pure n

/-- One iteration of the `_get_calls_waiting` loop: both searches are
applied to the line and each attribute is overwritten only on a
match. -/
def cwStep (acc : Option Nat × Option Nat) (line : List Char) :
    Option Nat × Option Nat :=
  let a1 :=
    match searchWith matchCallsWaitingAt line with
    | some n => (some n, acc.2)
    | none => acc
  match searchWith matchThreadsIdleAt line with
  | some n => (a1.1, some n)
  | none => a1

/-- The method `FileServerStats._get_calls_waiting` on the text printed by
`rxdebug <host> 7000 -rxstats -noconns`, starting from the current
attribute values. -/
def getCallsWaitingPair (out : String) (cw it : Option Nat) :
    Option Nat × Option Nat :=
  (splitNl out.data).foldl cwStep (cw, it)

/-! ## Status parser (`FileServerStats._get_fs_stats`) -/

/-- Match `r'last started at %s' % AFS_DATE_REGEX` at the current
position, returning the `date` group. -/
def matchLastStartedAt (cs : List Char) : Option (List Char) := do
  let r1 ← lit "last started at ".data cs
  matchAfsDateAt r1

/-- The method `FileServerStats._get_fs_stats`.  Here `output = none` models
`subprocess.CalledProcessError` (non-zero exit), answered with
`NO_CONNECTION` and an early return.  On the normal branch the missing
`last started at` phrase raises `AttributeError` (`m` is `None`) and a
malformed date raises `ValueError` from `strptime`; the restart time and
the uptime `timestamp - restart` are returned for assignment.  On the
`temporarily disabled` branch the source assigns
`FileServerStatus.TEMPORARILY_DISABLED`, an attribute the enum does not
define (its member is `TEMPORARY_DISABLED`), so Python raises
`AttributeError` there. -/
def getFsStats (output : Option String) (now : PDateTime) :
    Except PErr (FileServerStatus × Option (PDateTime × Int)) :=
  match output with
  | none => .ok (.NO_CONNECTION, none)
  | some out =>
    let cs := out.data
    if containsSub "currently running normally".data cs then
      match searchWith matchLastStartedAt cs with
      | none => .error .attributeError
      | some dstr =>
        match strptimeAfs dstr with
        | none => .error .valueError
        | some restart =>
          .ok (.NORMAL, some (restart, dtToSec now - dtToSec restart))
    else if containsSub "temporarily disabled, currently shutdown".data cs then
      .error .attributeError
    else if containsSub "disabled, currently shutdown".data cs then
      .ok (.DISABLED, none)
    else
      .ok (.UNKNOWN, none)

/-! ## Poll orchestration (`FileServerStats.get_stats`) -/

/-- The external commands `get_stats` can issue for one host. -/
inductive Cmd where
  | bosStatus
  | vosPartinfo
  | rxdebug
  | vosListvol
deriving DecidableEq, Repr

/-- What each external command would print for this host; `none` models
a non-zero exit status (`subprocess.CalledProcessError`). -/
structure HostEnv where
  bosOutput : Option String
  partinfoOutput : Option String
  rxdebugOutput : Option String
  listvolOutput : Option String

/-- The state after `self.timestamp = datetime.now()` and the
assignments `_get_fs_stats` performs: `status` always, `restart` and
`uptime` only when a pair was parsed (the `NORMAL` branch). -/
def applyFs (s : FileServerStats) (now : PDateTime) (st : FileServerStatus)
    (upd : Option (PDateTime × Int)) : FileServerStats :=
  match upd with
  | some (r, u) =>
    { s with timestamp := some now, status := some st,
             restart := some r, uptime := some u }
  | none => { s with timestamp := some now, status := some st }

/-- The method `FileServerStats.get_stats` on the state `s`, returning the trace of
commands issued together with the resulting state (or the exception that
aborted the poll).  The structure follows the source: set `timestamp`,
run `_get_fs_stats` (whose non-`NO_CONNECTION` failures propagate), and
only when the parsed status is `NORMAL` run `_get_partition_stats`,
`_get_calls_waiting` and `_get_volumes` in that order, each appending to
or overwriting the current attributes.  Only `CalledProcessError` from
the status command is caught; any other exception aborts the poll.  The
`PrettyTable` built at the end reads but never writes the attributes and
is not modelled. -/
def getStats (env : HostEnv) (now : PDateTime) (s : FileServerStats) :
    List Cmd × Except PErr FileServerStats :=
  match getFsStats env.bosOutput now with
  | .error e => ([.bosStatus], .error e)
  | .ok (st, upd) =>
    let s1 := applyFs s now st upd
    if st = .NORMAL then
      match env.partinfoOutput with
      | none => ([.bosStatus, .vosPartinfo], .error .calledProcessError)
      | some pout =>
        match getPartitionStats pout with
        | .error e => ([.bosStatus, .vosPartinfo], .error e)
        | .ok parts =>
          let s2 := { s1 with partitions := s1.partitions ++ parts }
          match env.rxdebugOutput with
          | none =>
            ([.bosStatus, .vosPartinfo, .rxdebug], .error .calledProcessError)
          | some rout =>
            let cwit := getCallsWaitingPair rout s2.calls_waiting s2.idle_threads
            let s3 := { s2 with calls_waiting := cwit.1, idle_threads := cwit.2 }
            match env.listvolOutput with
            | none =>
              ([.bosStatus, .vosPartinfo, .rxdebug, .vosListvol],
               .error .calledProcessError)
            | some lout =>
              match getVolumes lout with
              | .error e =>
                ([.bosStatus, .vosPartinfo, .rxdebug, .vosListvol], .error e)
              | .ok vols =>
                ([.bosStatus, .vosPartinfo, .rxdebug, .vosListvol],
                 .ok { s3 with volumes := s3.volumes ++ vols })
    else ([.bosStatus], .ok s1)

/-- The state a successful `NORMAL`-status poll leaves behind, as built
step by step inside `getStats`: partition records appended, thread
counters overwritten where matched, volumes appended. -/
def normalResult (s : FileServerStats) (now : PDateTime)
    (st : FileServerStatus) (upd : Option (PDateTime × Int))
    (parts : List Partition) (rout : String) (vols : List Volume) :
    FileServerStats :=
  let s1 := applyFs s now st upd
  let s2 := { s1 with partitions := s1.partitions ++ parts }
  let cwit := getCallsWaitingPair rout s2.calls_waiting s2.idle_threads
  let s3 := { s2 with calls_waiting := cwit.1, idle_threads := cwit.2 }
  { s3 with volumes := s3.volumes ++ vols }

/-! ## Statsd reporter (`AFSMonCmd.cmd_statsd`, afsmon/cmd/main.py) -/

/-- Python `s.replace('.', '_')` for the single-character arguments
used here. -/
def underscored (s : String) : String :=
  s.map (fun c => if c = '.' then '_' else c)

/-- The gauge samples one fileserver contributes to the statsd pipeline
(name, value); the creation time is sent as `int(strftime("%s"))`. -/
def statsdHostSamples (f : FileServerStats) : List (String × Option Int) :=
  let hn := underscored f.hostname
  [("afs." ++ hn ++ ".idle_threads", f.idle_threads.map (fun n => (n : Int))),
   ("afs." ++ hn ++ ".calls_waiting", f.calls_waiting.map (fun n => (n : Int)))]
  ++ f.partitions.foldr (fun p acc =>
      ("afs." ++ hn ++ ".part." ++ p.partition ++ ".used", some p.used) ::
      ("afs." ++ hn ++ ".part." ++ p.partition ++ ".free", some (p.free : Int)) ::
      ("afs." ++ hn ++ ".part." ++ p.partition ++ ".total", some (p.total : Int)) ::
      acc) []
  ++ f.volumes.foldr (fun v acc =>
      let vn := underscored v.volume
      ("afs." ++ hn ++ ".vol." ++ vn ++ ".used", some (v.used : Int)) ::
      ("afs." ++ hn ++ ".vol." ++ vn ++ ".quota", some (v.quota : Int)) ::
      ("afs." ++ hn ++ ".vol." ++ vn ++ ".creation", some (dtToSec v.creation)) ::
      acc) []

/-- The reporting loop of `cmd_statsd`: hosts whose status is not
`NORMAL` are skipped with `continue`; the rest contribute their samples
in order. -/
def cmdStatsd : List FileServerStats → List (String × Option Int)
  | [] => []
  | f :: rest =>
    (if f.status = some .NORMAL then statsdHostSamples f else [])
      ++ cmdStatsd rest

/-! ## Concrete inputs used in the witnesses and counterexamples -/

/-- Modelled from the spec: the test fixture
`afsmon/tests/fixtures/vos-listvol.txt` is not among the provided source
files; this is its `docs.backup` record exactly as the spec and the unit
test `test_vos_listvol_parsing` describe it (name `docs.backup`, id
536870993, permission BK, used 17270997 K, quota 50000000 K, creation
Tue Oct 2 18:45:54 2018), in the 9-line layout of
`vos listvol -long`. -/
def bkFixtureChunk : String :=
  "docs.backup                       536870993 BK   17270997 K  On-line\n" ++
  "    afs01.dfw.openstack.org /vicepa \n" ++
  "    RWrite  536870992 ROnly          0 Backup  536870993 \n" ++
  "    MaxQuota   50000000 K \n" ++
  "    Creation    Tue Oct  2 18:45:54 2018\n" ++
  "    Copy        Tue Oct  2 18:45:54 2018\n" ++
  "    Backup      Tue Oct  2 18:45:54 2018\n" ++
  "    Last Update Tue Oct  2 18:45:54 2018\n" ++
  "    0 accesses in the past day\n"

/-- A well-formed 9-line RW volume record. -/
def rwChunk : String :=
  "mirror.foo                        536871036 RW   63026403 K  On-line\n" ++
  "    afs01.dfw.openstack.org /vicepa \n" ++
  "    RWrite  536871036 ROnly          0 Backup          0 \n" ++
  "    MaxQuota  100000000 K \n" ++
  "    Creation    Tue Oct  2 18:45:54 2018\n" ++
  "    Copy        Tue Oct  2 18:45:54 2018\n" ++
  "    Backup      Never\n" ++
  "    Last Update Tue Oct  2 18:45:54 2018\n" ++
  "    0 accesses in the past day\n"

/-- The `Volume` that `rwChunk` parses to: 63026403 K used of a
100000000 K quota, i.e. 63.03 percent after rounding. -/
def rwVolume : Volume :=
  { volume := "mirror.foo", id := "536871036", perms := "RW",
    used := 63026403, quota := 100000000,
    percent_used := round2 ((63026403 : ℚ) / (100000000 : ℚ) * 100),
    creation := { year := 2018, month := 10, day := 2,
                  hour := 18, minute := 45, second := 54 } }

/-- A truncated `vos listvol` output: the marker line plus only four
further lines (fewer than the 8 the chunk reader asks for), yet still
containing the header, `MaxQuota` and `Creation` sub-lines. -/
def truncListvol : String :=
  "mirror.foo                        536871036 RW   63026403 K  On-line\n" ++
  "    afs01.dfw.openstack.org /vicepa \n" ++
  "    RWrite  536871036 ROnly          0 Backup          0 \n" ++
  "    MaxQuota  100000000 K \n" ++
  "    Creation    Tue Oct  2 18:45:54 2018"

/-- A volume record whose `MaxQuota` is 0 K. -/
def zeroQuotaChunk : String :=
  "mirror.zero                       536871040 RW         12 K  On-line\n" ++
  "    afs01.dfw.openstack.org /vicepa \n" ++
  "    RWrite  536871040 ROnly          0 Backup          0 \n" ++
  "    MaxQuota          0 K \n" ++
  "    Creation    Tue Oct  2 18:45:54 2018\n"

/-- A volume record with no `MaxQuota` sub-line. -/
def noQuotaChunk : String :=
  "mirror.bad                        536871041 RW         12 K  On-line\n" ++
  "    afs01.dfw.openstack.org /vicepa \n" ++
  "    Creation    Tue Oct  2 18:45:54 2018\n"

/-- Keep the new value on a match, the accumulator otherwise (the
shape of each `if m:` assignment in `_get_calls_waiting`). -/
def opOr (o a : Option Nat) : Option Nat :=
  match o with
  | some n => some n
  | none => a

/-- The last successful search of `m` over the lines, if any. -/
def lastMatch (m : List Char → Option Nat) (ls : List (List Char)) :
    Option Nat :=
  ls.foldl (fun acc l => opOr (searchWith m l) acc) none

/-- A fixed poll instant for the closed witness statements. -/
def now0 : PDateTime :=
  { year := 2018, month := 10, day := 9, hour := 0, minute := 0, second := 0 }

/-- A host environment whose status command exits non-zero. -/
def envDown : HostEnv :=
  { bosOutput := none, partinfoOutput := some "", rxdebugOutput := some "",
    listvolOutput := some "" }

/-- A `bos status` output for a normally running server. -/
def normalBosOut : String :=
  "Instance fs, currently running normally.\n" ++
  "    Process last started at Tue Nov  2 03:35:15 2016 (2 proc starts)"

/-- The restart time appearing in `normalBosOut`. -/
def dt2016 : PDateTime :=
  { year := 2016, month := 11, day := 2, hour := 3, minute := 35, second := 15 }

/-- A one-partition `vos partinfo` output. -/
def partinfoOut : String :=
  "Free space on partition /vicepa: 512 K blocks out of total 1024"

/-- A healthy host environment: normal status with a restart time, one
partition, thread stats, and no volumes. -/
def envNormal : HostEnv :=
  { bosOutput := some normalBosOut,
    partinfoOutput := some partinfoOut,
    rxdebugOutput := some "0 calls waiting for a thread\n250 threads are idle",
    listvolOutput := some "" }

/-- The state a poll of `envDisabled` leaves on a fresh
`FileServerStats` for host `afs02.example.org`. -/
def disabledResult : FileServerStats :=
  { hostname := "afs02.example.org", timestamp := some now0,
    restart := none, uptime := none, partitions := [], volumes := [],
    calls_waiting := none, idle_threads := none,
    status := some .DISABLED }

/-- The state one poll of `envNormal` leaves on a fresh
`FileServerStats` for host `afs01.example.org`. -/
def freshPollResult : FileServerStats :=
  { hostname := "afs01.example.org", timestamp := some now0,
    restart := some dt2016,
    uptime := some (dtToSec now0 - dtToSec dt2016),
    partitions := [mkPartition "a" 512 1024], volumes := [],
    calls_waiting := some 0, idle_threads := some 250,
    status := some .NORMAL }

/-- The state a second poll of `envNormal` leaves when run on
`freshPollResult` instead of a fresh object: the partition list has
been appended to, not replaced. -/
def secondPollResult : FileServerStats :=
  { freshPollResult with
    partitions := [mkPartition "a" 512 1024, mkPartition "a" 512 1024] }

/-- A host environment whose status output reports the server disabled. -/
def envDisabled : HostEnv :=
  { bosOutput := some "Instance fs, disabled, currently shutdown.",
    partinfoOutput := some "", rxdebugOutput := some "",
    listvolOutput := some "" }

end Afsmon

namespace Afsmon

/-! ## Helper lemmas -/

/-- Applying `round2` to a value in `[0, 100]` stays in `[0, 100]`. -/
theorem round2_mem_Icc (x : ℚ) (h0 : 0 ≤ x) (h1 : x ≤ 100) :
    0 ≤ round2 x ∧ round2 x ≤ 100 := by
  unfold round2
  constructor
  · have hf : (0 : ℤ) ≤ ⌊x * 100 + 1 / 2⌋ := by
      apply Int.le_floor.mpr
      push_cast
      linarith
    have hq : (0 : ℚ) ≤ ((⌊x * 100 + 1 / 2⌋ : ℤ) : ℚ) := by exact_mod_cast hf
    positivity
  · have hf : ⌊x * 100 + 1 / 2⌋ < 10001 := by
      apply Int.floor_lt.mpr
      push_cast
      linarith
    have hf' : ⌊x * 100 + 1 / 2⌋ ≤ 10000 := by omega
    have hq : ((⌊x * 100 + 1 / 2⌋ : ℤ) : ℚ) ≤ 10000 := by exact_mod_cast hf'
    rw [div_le_iff₀ (by norm_num : (0 : ℚ) < 100)]
    linarith

/-- The parser `getFsStats` attaches a restart/uptime pair only to `NORMAL`. -/
theorem getFsStats_upd_normal (o : Option String) (now : PDateTime)
    (st : FileServerStatus) (p : PDateTime × Int)
    (h : getFsStats o now = .ok (st, some p)) : st = .NORMAL := by
  unfold getFsStats at h
  rcases o with _ | out
  · simp at h
  · simp only at h
    split at h
    all_goals try split at h
    all_goals try split at h
    all_goals simp_all

/-- One step of the `_get_calls_waiting` loop, componentwise. -/
theorem cwStep_eq (a b : Option Nat) (l : List Char) :
    cwStep (a, b) l =
      (opOr (searchWith matchCallsWaitingAt l) a,
       opOr (searchWith matchThreadsIdleAt l) b) := by
  unfold cwStep opOr
  rcases h1 : searchWith matchCallsWaitingAt l with _ | n <;>
    rcases h2 : searchWith matchThreadsIdleAt l with _ | m <;> simp [h1, h2]

/-- The override `opOr` is associative. -/
theorem opOr_assoc (x y z : Option Nat) :
    opOr x (opOr y z) = opOr (opOr x y) z := by
  cases x <;> simp [opOr]

/-- The value `none` is a right identity for `opOr`. -/
theorem opOr_none_right (x : Option Nat) : opOr x none = x := by
  cases x <;> rfl

/-- Folding the override step from any seed factors through the fold
from `none`. -/
theorem foldl_opOr_seed (m : List Char → Option Nat)
    (ls : List (List Char)) :
    ∀ a : Option Nat,
      ls.foldl (fun acc l => opOr (searchWith m l) acc) a =
        opOr (lastMatch m ls) a := by
  induction ls with
  | nil => intro a; simp [lastMatch, opOr]
  | cons l ls ih =>
    intro a
    rw [List.foldl_cons, ih (opOr (searchWith m l) a)]
    have hstep : lastMatch m (l :: ls)
        = opOr (lastMatch m ls) (searchWith m l) := by
      have h0 : lastMatch m (l :: ls)
          = ls.foldl (fun acc x => opOr (searchWith m x) acc)
              (opOr (searchWith m l) none) := by
        simp [lastMatch]
      rw [h0, ih (opOr (searchWith m l) none), opOr_none_right]
    rw [hstep, ← opOr_assoc]

/-- Unfolding `lastMatch` over a cons, via the seed lemma. -/
theorem lastMatch_cons (m : List Char → Option Nat) (l : List Char)
    (ls : List (List Char)) :
    lastMatch m (l :: ls) = opOr (lastMatch m ls) (searchWith m l) := by
  have h0 : lastMatch m (l :: ls)
      = ls.foldl (fun acc x => opOr (searchWith m x) acc)
          (opOr (searchWith m l) none) := by
    simp [lastMatch]
  rw [h0, foldl_opOr_seed m ls (opOr (searchWith m l) none), opOr_none_right]

/-- Componentwise characterisation of the `_get_calls_waiting` fold. -/
theorem cwFold_char (ls : List (List Char)) (a b : Option Nat) :
    ls.foldl cwStep (a, b) =
      (opOr (lastMatch matchCallsWaitingAt ls) a,
       opOr (lastMatch matchThreadsIdleAt ls) b) := by
  induction ls generalizing a b with
  | nil => simp [lastMatch, opOr]
  | cons l ls ih =>
    rw [List.foldl_cons, cwStep_eq, ih, lastMatch_cons, lastMatch_cons,
      ← opOr_assoc, ← opOr_assoc]

/-- Feeding the result of `getCallsWaitingPair` back in is a no-op. -/
theorem getCallsWaitingPair_idem (out : String) :
    getCallsWaitingPair out
        (getCallsWaitingPair out none none).1
        (getCallsWaitingPair out none none).2 =
      getCallsWaitingPair out none none := by
  unfold getCallsWaitingPair
  rw [cwFold_char, cwFold_char]
  cases h1 : lastMatch matchCallsWaitingAt (splitNl out.data) <;>
    cases h2 : lastMatch matchThreadsIdleAt (splitNl out.data) <;>
      simp [h1, h2, opOr]

/-- Success of `getPartsLines` yields exactly the matched lines, in
source order, each converted by `mkPartition`. -/
theorem getPartsLines_ok (ls : List (List Char)) :
    ∀ ps, getPartsLines ls = .ok ps →
      ps = ls.filterMap
        (fun l => (partLineMatch l).map (fun m => mkPartition m.1 m.2.1 m.2.2)) := by
  induction ls with
  | nil =>
    intro ps h
    simp [getPartsLines] at h
    simp [← h]
  | cons l ls ih =>
    intro ps h
    simp only [getPartsLines] at h
    split at h
    · rename_i hm
      simp only [List.filterMap_cons, hm, Option.map_none]
      exact ih ps h
    · rename_i x p free total hm
      split at h
      · exact absurd h (by simp)
      · split at h
        · exact absurd h (by simp)
        · rename_i rest heq2
          simp only [Except.ok.injEq] at h
          subst h
          simp [List.filterMap_cons, hm, ih rest heq2]


/-! ## Claim theorems -/

set_option maxRecDepth 100000

/-- C1: the claim says `_get_volumes` stores volumes of every permission
kind (RO, RW and BK) and that the fixture's `docs.backup` BK volume
appears once in the result.  In fact `vol_regex` only admits `R[OW]` as
the permission group, so on the fixture's `docs.backup` chunk the header
regex does not match and `m.group('used')` raises `AttributeError`
instead of producing any volume: the parser cannot store a BK volume at
all, contradicting the repository's own unit test. -/
theorem volumes_bk_chunk_raises :
    getVolumes bkFixtureChunk = .error .attributeError := by
  rfl

/-- C3: the claim says a status text containing both "temporarily
disabled, currently shutdown" and "disabled, currently shutdown" is
classified `TEMPORARILY_DISABLED`, never `DISABLED`.  The branch order
in `_get_fs_stats` is indeed temporarily-disabled first, but that branch
assigns `FileServerStatus.TEMPORARILY_DISABLED`, an attribute the enum
does not define (its member is spelled `TEMPORARY_DISABLED`), so the
code raises `AttributeError` instead of classifying: here evaluated on a
concrete output containing both substrings. -/
theorem temporarily_disabled_branch_raises :
    getFsStats
        (some "Instance fs, temporarily disabled, currently shutdown.")
        now0
      = .error .attributeError := by
  rfl

/-- C7 counterexample: a `vos listvol` output whose marker line is
followed by only four further lines (fewer than the 8 the claim says
must remain on pain of a parse error).  The reader pads the chunk with
empty strings and, since the header, `MaxQuota` and `Creation` sub-lines
are all still present, the parser returns a complete `Volume` instead of
raising. -/
theorem truncated_chunk_parses :
    getVolumes truncListvol = .ok [rwVolume] := by
  rfl

/-- C7 (amended): a chunk that fails to yield any of the three required
sub-matches — the header line, the `MaxQuota` line or the `Creation`
line — makes the volume parser raise instead of skipping the chunk or
emitting a partial record.  (Truncation by itself does not raise:
`readline` returns empty strings past end of input, and a truncated
chunk errors only when one of the required sub-lines is among those cut
off, as `truncated_chunk_parses` shows.) -/
theorem volume_chunk_missing_fields_raise (chunk : List Char)
    (h : matchVolHeaderAt chunk = none
         ∨ searchWith matchMaxQuotaAt chunk = none
         ∨ searchWith matchCreationAt chunk = none) :
    ∃ e, parseVolChunk chunk = .error e := by
  unfold parseVolChunk
  rcases hm : matchVolHeaderAt chunk with _ | ⟨vol, idS, perms, used⟩
  · exact ⟨.attributeError, rfl⟩
  · rcases hq : searchWith matchMaxQuotaAt chunk with _ | quota
    · exact ⟨.attributeError, rfl⟩
    · rcases h with h | h | h
      · exact absurd hm (h ▸ by simp)
      · exact absurd hq (h ▸ by simp)
      · by_cases h0 : quota = 0
        · exact ⟨.zeroDivisionError, by simp [h0]⟩
        · exact ⟨.attributeError, by simp [h0, h]⟩

/-- Witness for `volume_chunk_missing_fields_raise`: a chunk with no
`MaxQuota` sub-line makes the parser raise. -/
theorem volume_chunk_missing_fields_raise_witness :
    ∃ e, parseVolChunk noQuotaChunk.data = .error e :=
  volume_chunk_missing_fields_raise noQuotaChunk.data
    (Or.inr (Or.inl (by rfl)))

/-- C5: a parsed volume chunk whose `MaxQuota` field is 0 K makes the
parser raise (`ZeroDivisionError` from `float(used) / float(quota)`, or
`AttributeError` earlier if the header did not match) and never yields a
`Volume`; and every successfully stored `Volume` has a positive quota
and `percent_used = round(used / quota * 100, 2)` exactly. -/
theorem volume_percent_and_zero_quota (chunk : List Char) :
    (searchWith matchMaxQuotaAt chunk = some 0 →
      ∃ e, parseVolChunk chunk = .error e)
    ∧ ∀ v, parseVolChunk chunk = .ok v →
        0 < v.quota
        ∧ v.percent_used = round2 ((v.used : ℚ) / (v.quota : ℚ) * 100) := by
  constructor
  · intro hq
    unfold parseVolChunk
    rcases hm : matchVolHeaderAt chunk with _ | ⟨vol, idS, perms, used⟩
    · exact ⟨.attributeError, rfl⟩
    · exact ⟨.zeroDivisionError, by simp [hq]⟩
  · intro v hv
    unfold parseVolChunk at hv
    split at hv
    · simp at hv
    · split at hv
      · simp at hv
      · split at hv
        · simp at hv
        · split at hv
          · simp at hv
          · split at hv
            · simp at hv
            · simp only [Except.ok.injEq] at hv
              subst hv
              exact ⟨Nat.pos_of_ne_zero (by assumption), rfl⟩

/-- Witness for `volume_percent_and_zero_quota`: the zero-quota chunk
raises, and the parsed `rwChunk` volume carries the claimed rounded
percentage. -/
theorem volume_percent_and_zero_quota_witness :
    (∃ e, parseVolChunk zeroQuotaChunk.data = .error e)
    ∧ (0 < rwVolume.quota
       ∧ rwVolume.percent_used
           = round2 ((rwVolume.used : ℚ) / (rwVolume.quota : ℚ) * 100)) :=
  ⟨(volume_percent_and_zero_quota zeroQuotaChunk.data).1 (by rfl),
   (volume_percent_and_zero_quota rwChunk.data).2 rwVolume (by rfl)⟩

/-- Every successful `getStats` run is either a non-`NORMAL`
short-circuit after the status command alone, or a full `NORMAL` pass
over all four commands. -/
theorem getStats_ok_cases (env : HostEnv) (now : PDateTime)
    (s : FileServerStats) (cmds : List Cmd) (s' : FileServerStats)
    (h : getStats env now s = (cmds, .ok s')) :
    ∃ st upd, getFsStats env.bosOutput now = .ok (st, upd)
      ∧ ((st ≠ .NORMAL ∧ cmds = [.bosStatus] ∧ s' = applyFs s now st upd)
         ∨ (st = .NORMAL
            ∧ cmds = [.bosStatus, .vosPartinfo, .rxdebug, .vosListvol]
            ∧ ∃ pout parts rout lout vols,
                env.partinfoOutput = some pout
                ∧ getPartitionStats pout = .ok parts
                ∧ env.rxdebugOutput = some rout
                ∧ env.listvolOutput = some lout
                ∧ getVolumes lout = .ok vols
                ∧ s' = normalResult s now st upd parts rout vols)) := by
  unfold getStats at h
  split at h
  · simp at h
  · rename_i st upd heq
    refine ⟨st, upd, heq, ?_⟩
    by_cases hN : st = .NORMAL
    · rw [if_pos hN] at h
      refine Or.inr ⟨hN, ?_⟩
      split at h
      · simp at h
      · rename_i pout hpo
        split at h
        · simp at h
        · rename_i parts hpp
          split at h
          · simp at h
          · rename_i rout hro
            split at h
            · simp at h
            · rename_i lout hlo
              split at h
              · simp at h
              · rename_i vols hvv
                simp only [Prod.mk.injEq, Except.ok.injEq] at h
                exact ⟨h.1.symm, pout, parts, rout, lout, vols,
                       hpo, hpp, hro, hlo, hvv, h.2.symm⟩
    · rw [if_neg hN] at h
      simp only [Prod.mk.injEq, Except.ok.injEq] at h
      exact Or.inl ⟨hN, h.1.symm, h.2.symm⟩

/-- C4: on a status output containing "currently running normally", a
missing `last started at <date>` phrase is a hard error (`m` is `None`
and `m.group` raises), never silently ignored; when the phrase is
present and parses, the result is `NORMAL` with `restart` the parsed
timestamp and `uptime = timestamp - restart`. -/
theorem status_normal_requires_restart_phrase (out : String)
    (now : PDateTime)
    (hc : containsSub "currently running normally".data out.data = true) :
    (searchWith matchLastStartedAt out.data = none →
        getFsStats (some out) now = .error .attributeError)
    ∧ (∀ d r, searchWith matchLastStartedAt out.data = some d →
        strptimeAfs d = some r →
        getFsStats (some out) now
          = .ok (.NORMAL, some (r, dtToSec now - dtToSec r))) := by
  constructor
  · intro hnone
    simp [getFsStats, hc, hnone]
  · intro d r hd hr
    simp [getFsStats, hc, hd, hr]

/-- Witness for `status_normal_requires_restart_phrase`: a normal status
output with no restart phrase errors; `normalBosOut` parses to `NORMAL`
with the fixed restart time and computed uptime. -/
theorem status_normal_requires_restart_phrase_witness :
    getFsStats (some "Instance fs, currently running normally.") now0
      = .error .attributeError
    ∧ getFsStats (some normalBosOut) now0
      = .ok (.NORMAL, some (dt2016, dtToSec now0 - dtToSec dt2016)) :=
  ⟨(status_normal_requires_restart_phrase
      "Instance fs, currently running normally." now0 (by rfl)).1 (by rfl),
   (status_normal_requires_restart_phrase normalBosOut now0 (by rfl)).2
      "Tue Nov  2 03:35:15 2016".data dt2016 (by rfl) (by rfl)⟩

/-- C6: each matched partition-info line with positive total and
`free ≤ total` yields a `Partition` with `used = total - free` (so
`used + free = total` exactly) and
`percent_used = round(used / total * 100, 2)` lying in `[0, 100]`;
and a successful parse emits exactly the matching lines, in source
order, non-matching lines contributing nothing. -/
theorem partition_fields_and_order :
    (∀ (p : String) (free total : Nat), 0 < total → free ≤ total →
        (mkPartition p free total).used = (total : Int) - (free : Int)
        ∧ (mkPartition p free total).used + (free : Int) = (total : Int)
        ∧ (mkPartition p free total).percent_used
            = round2 ((((mkPartition p free total).used : ℚ) / (total : ℚ)) * 100)
        ∧ 0 ≤ (mkPartition p free total).percent_used
        ∧ (mkPartition p free total).percent_used ≤ 100)
    ∧ ∀ (out : String) (ps : List Partition),
        getPartitionStats out = .ok ps →
        ps = (splitNl out.data).filterMap
          (fun l => (partLineMatch l).map
            (fun m => mkPartition m.1 m.2.1 m.2.2)) := by
  constructor
  · intro p free total htot hfle
    have ht : (0 : ℚ) < (total : ℚ) := by exact_mod_cast htot
    have hf : (free : ℚ) ≤ (total : ℚ) := by exact_mod_cast hfle
    have hx0 : 0 ≤ (((total : ℚ) - (free : ℚ)) / (total : ℚ)) * 100 := by
      have := div_nonneg (by linarith : (0 : ℚ) ≤ (total : ℚ) - free) ht.le
      linarith
    have hx1 : (((total : ℚ) - (free : ℚ)) / (total : ℚ)) * 100 ≤ 100 := by
      have := (div_le_one ht).mpr (by linarith : (total : ℚ) - free ≤ total)
      linarith
    have hb := round2_mem_Icc _ hx0 hx1
    refine ⟨rfl, ?_, ?_, hb.1, hb.2⟩
    · show ((total : Int) - (free : Int)) + (free : Int) = (total : Int)
      ring
    have hcast : (((total : Int) - (free : Int) : Int) : ℚ)
        = (total : ℚ) - (free : ℚ) := by push_cast; ring
    show round2 ((((total : ℚ) - (free : ℚ)) / (total : ℚ)) * 100)
      = round2 (((((total : Int) - (free : Int) : Int) : ℚ) / (total : ℚ)) * 100)
    rw [hcast]
  · intro out ps h
    exact getPartsLines_ok (splitNl out.data) ps h

/-- Witness for `partition_fields_and_order`: the 512-of-1024 partition
line, and the one-line `vos partinfo` output around it. -/
theorem partition_fields_and_order_witness :
    ((mkPartition "a" 512 1024).used = (1024 : Int) - (512 : Int)
     ∧ (mkPartition "a" 512 1024).used + (512 : Int) = (1024 : Int)
     ∧ (mkPartition "a" 512 1024).percent_used
         = round2 ((((mkPartition "a" 512 1024).used : ℚ) / (1024 : ℚ)) * 100)
     ∧ 0 ≤ (mkPartition "a" 512 1024).percent_used
     ∧ (mkPartition "a" 512 1024).percent_used ≤ 100)
    ∧ [mkPartition "a" 512 1024]
        = (splitNl partinfoOut.data).filterMap
            (fun l => (partLineMatch l).map
              (fun m => mkPartition m.1 m.2.1 m.2.2)) :=
  ⟨partition_fields_and_order.1 "a" 512 1024 (by norm_num) (by norm_num),
   partition_fields_and_order.2 partinfoOut [mkPartition "a" 512 1024] (by rfl)⟩

/-- C2: a failing status command (non-zero exit) short-circuits the poll
to `NO_CONNECTION` with only the one status command issued and every
other attribute left at its initial unset/empty value; and the
partition, thread and volume commands appear in the trace only when the
parsed status is `NORMAL`. -/
theorem noconnection_short_circuit :
    (∀ (env : HostEnv) (now : PDateTime) (h : String),
        env.bosOutput = none →
        getStats env now (initFS h)
          = ([Cmd.bosStatus],
             .ok { hostname := h, timestamp := some now, restart := none,
                   uptime := none, partitions := [], volumes := [],
                   calls_waiting := none, idle_threads := none,
                   status := some .NO_CONNECTION }))
    ∧ ∀ (env : HostEnv) (now : PDateTime) (s : FileServerStats),
        (∀ upd, getFsStats env.bosOutput now ≠ .ok (.NORMAL, upd)) →
        (getStats env now s).1 = [Cmd.bosStatus] := by
  constructor
  · intro env now h hb
    unfold getStats
    rw [hb]
    rfl
  · intro env now s hne
    unfold getStats
    rcases hfs : getFsStats env.bosOutput now with e | ⟨st, upd⟩
    · rfl
    · by_cases hN : st = .NORMAL
      · subst hN
        exact absurd hfs (hne upd)
      · simp [hN]

/-- Witness for `noconnection_short_circuit` at the failing environment
`envDown`. -/
theorem noconnection_short_circuit_witness :
    getStats envDown now0 (initFS "afs01.example.org")
      = ([Cmd.bosStatus],
         .ok { hostname := "afs01.example.org", timestamp := some now0,
               restart := none, uptime := none, partitions := [],
               volumes := [], calls_waiting := none, idle_threads := none,
               status := some .NO_CONNECTION })
    ∧ (getStats envDown now0 (initFS "afs01.example.org")).1
        = [Cmd.bosStatus] :=
  ⟨noconnection_short_circuit.1 envDown now0 "afs01.example.org" (by rfl),
   noconnection_short_circuit.2 envDown now0 (initFS "afs01.example.org")
     (by intro upd hcontra; simp [getFsStats, envDown] at hcontra)⟩

/-- C8: after a completed `get_stats` poll on a freshly constructed
`FileServerStats`, whenever the resulting status is not `NORMAL` only
`hostname`, `timestamp` and `status` are populated: `restart`, `uptime`,
`calls_waiting` and `idle_threads` stay `none` and `partitions` and
`volumes` stay empty. -/
theorem non_normal_leaves_fields_unset (env : HostEnv) (now : PDateTime)
    (h : String) (cmds : List Cmd) (s : FileServerStats)
    (hrun : getStats env now (initFS h) = (cmds, .ok s))
    (hst : s.status ≠ some .NORMAL) :
    s.hostname = h ∧ s.timestamp = some now
    ∧ (∃ st, s.status = some st)
    ∧ s.restart = none ∧ s.uptime = none ∧ s.calls_waiting = none
    ∧ s.idle_threads = none ∧ s.partitions = [] ∧ s.volumes = [] := by
  obtain ⟨st, upd, hfs, hcase⟩ :=
    getStats_ok_cases env now (initFS h) cmds s hrun
  rcases hcase with ⟨hne, _, hs⟩ |
    ⟨hN, _, pout, parts, rout, lout, vols, _, _, _, _, _, hs⟩
  · rcases upd with _ | ⟨r, u⟩
    · subst hs
      exact ⟨rfl, rfl, ⟨st, rfl⟩, rfl, rfl, rfl, rfl, rfl, rfl⟩
    · exact absurd (getFsStats_upd_normal env.bosOutput now st (r, u) hfs) hne
  · subst hs hN
    rcases upd with _ | ⟨r, u⟩ <;>
      simp [normalResult, applyFs, initFS] at hst

/-- Witness for `non_normal_leaves_fields_unset`: the disabled host. -/
theorem non_normal_leaves_fields_unset_witness :
    disabledResult.hostname = "afs02.example.org"
    ∧ disabledResult.timestamp = some now0
    ∧ (∃ st, disabledResult.status = some st)
    ∧ disabledResult.restart = none ∧ disabledResult.uptime = none
    ∧ disabledResult.calls_waiting = none
    ∧ disabledResult.idle_threads = none
    ∧ disabledResult.partitions = [] ∧ disabledResult.volumes = [] :=
  non_normal_leaves_fields_unset envDisabled now0 "afs02.example.org"
    [Cmd.bosStatus] disabledResult (by rfl) (by decide)

/-- C9 counterexample: the claim says a second `get_stats` on the same
object equals a single run on a fresh object.  Over the identical
outputs of `envNormal`, a fresh run stores one partition but the re-run
stores two — the list is appended to, not replaced. -/
theorem repoll_differs_from_fresh :
    ((getStats envNormal now0 (initFS "afs01.example.org")).2.toOption.bind
      (fun s1 => ((getStats envNormal now0 s1).2.toOption.map
        (fun s2 => (s1.partitions.length, s2.partitions.length)))))
      = some (1, 2) := by
  rfl

/-- C9 (amended): `afsmon/__init__.py` initialises the lists only in
`__init__`, so a second `get_stats` on the same object *appends* the
re-parsed partitions and volumes to the previous poll's lists instead of
replacing them, while the scalar fields (`restart`, `uptime`,
`calls_waiting`, `idle_threads`, `status`, `timestamp`) are overwritten
and do equal the fresh run's values.  (The older `pyafsmon.py` variant
resets all fields at the start of each poll, for which the wholesale
replacement reading holds.) -/
theorem repoll_appends_lists (env : HostEnv) (now : PDateTime)
    (h : String) (c1 c2 : List Cmd) (s1 s2 : FileServerStats)
    (h1 : getStats env now (initFS h) = (c1, .ok s1))
    (h2 : getStats env now s1 = (c2, .ok s2)) :
    s2.partitions = s1.partitions ++ s1.partitions
    ∧ s2.volumes = s1.volumes ++ s1.volumes
    ∧ s2.hostname = s1.hostname ∧ s2.timestamp = s1.timestamp
    ∧ s2.status = s1.status ∧ s2.restart = s1.restart
    ∧ s2.uptime = s1.uptime ∧ s2.calls_waiting = s1.calls_waiting
    ∧ s2.idle_threads = s1.idle_threads := by
  obtain ⟨st, upd, hfs, hcase1⟩ := getStats_ok_cases _ _ _ _ _ h1
  obtain ⟨st2, upd2, hfs2, hcase2⟩ := getStats_ok_cases _ _ _ _ _ h2
  rw [hfs] at hfs2
  simp only [Except.ok.injEq, Prod.mk.injEq] at hfs2
  obtain ⟨hst2, hupd2⟩ := hfs2
  subst hst2
  subst hupd2
  rcases hcase1 with ⟨hne, _, hs1⟩ |
    ⟨hN, _, pout, parts, rout, lout, vols, hpo, hpp, hro, hlo, hvv, hs1⟩
  · rcases hcase2 with ⟨_, _, hs2⟩ | ⟨hN2, _, _⟩
    · subst hs1 hs2
      rcases upd with _ | ⟨r, u⟩ <;>
        exact ⟨rfl, rfl, rfl, rfl, rfl, rfl, rfl, rfl, rfl⟩
    · exact absurd hN2 hne
  · rcases hcase2 with ⟨hne2, _, _⟩ |
      ⟨_, _, pout2, parts2, rout2, lout2, vols2, hpo2, hpp2, hro2, hlo2,
       hvv2, hs2⟩
    · exact absurd hN hne2
    · rw [hpo] at hpo2
      rw [hro] at hro2
      rw [hlo] at hlo2
      simp only [Option.some.injEq] at hpo2 hro2 hlo2
      subst hpo2
      subst hro2
      subst hlo2
      rw [hpp] at hpp2
      rw [hvv] at hvv2
      simp only [Except.ok.injEq] at hpp2 hvv2
      subst hpp2
      subst hvv2
      subst hs1
      subst hs2
      rcases upd with _ | ⟨r, u⟩ <;>
        simp [normalResult, applyFs, initFS, getCallsWaitingPair_idem]

/-- Witness for `repoll_appends_lists`: the concrete double poll of
`envNormal`. -/
theorem repoll_appends_lists_witness :
    secondPollResult.partitions
        = freshPollResult.partitions ++ freshPollResult.partitions
    ∧ secondPollResult.volumes
        = freshPollResult.volumes ++ freshPollResult.volumes
    ∧ secondPollResult.hostname = freshPollResult.hostname
    ∧ secondPollResult.timestamp = freshPollResult.timestamp
    ∧ secondPollResult.status = freshPollResult.status
    ∧ secondPollResult.restart = freshPollResult.restart
    ∧ secondPollResult.uptime = freshPollResult.uptime
    ∧ secondPollResult.calls_waiting = freshPollResult.calls_waiting
    ∧ secondPollResult.idle_threads = freshPollResult.idle_threads :=
  repoll_appends_lists envNormal now0 "afs01.example.org"
    [Cmd.bosStatus, Cmd.vosPartinfo, Cmd.rxdebug, Cmd.vosListvol]
    [Cmd.bosStatus, Cmd.vosPartinfo, Cmd.rxdebug, Cmd.vosListvol]
    freshPollResult secondPollResult (by rfl) (by rfl)

/-- C10: the statsd reporter skips hosts whose status is not `NORMAL`
entirely: removing such a host from the fileserver list leaves the
emitted gauge stream unchanged, so no sample of any kind (thread
counters, partition or volume gauges) is ever emitted for it. -/
theorem statsd_skips_non_normal (pre post : List FileServerStats)
    (f : FileServerStats) (hf : f.status ≠ some .NORMAL) :
    cmdStatsd (pre ++ f :: post) = cmdStatsd (pre ++ post) := by
  induction pre with
  | nil => simp [cmdStatsd, hf]
  | cons g pre ih => simp [cmdStatsd, ih]

/-- Witness for `statsd_skips_non_normal`: the disabled host contributes
no samples. -/
theorem statsd_skips_non_normal_witness :
    cmdStatsd ([] ++ disabledResult :: []) = cmdStatsd ([] ++ []) :=
  statsd_skips_non_normal [] [] disabledResult (by decide)

end Afsmon
